import Mathlib

/-!
Verification development for a vocabulary-study application.

The embedding covers the quiz page (four-choice option generation, countdown,
answer handling, session state machine), the flashcard page (card navigation,
countdown, progress toggling) and the learning-history API route (per-word
counter upserts).  Randomness of the in-place shuffles is modelled by passing
one permutation-valued function per shuffle call site; theorems quantify over
all such functions that permute their input.
-/

/-- A vocabulary word as loaded from the word supply. -/
structure Word where
  id : Nat
  english : String
  japanese : String
  level : String
deriving DecidableEq, Repr

/-- Quiz / flashcard direction: which field is the answer field. -/
inductive QuizMode where
  | enToJa
  | jaToEn
deriving DecidableEq, Repr

/-- The answer-side field of a word for the given direction.  The source
duplicates the whole option-generation algorithm per direction, differing only
in whether `japanese` or `english` is read; this selector captures that
difference. -/
def answerField (mode : QuizMode) (w : Word) : String :=
  match mode with
  | .enToJa => w.japanese
  | .jaToEn => w.english

/-- Adding to the JS `Set<string>` holding the wrong answers: insertion order
is kept, duplicates are dropped. -/
def insertUnique (acc : List String) (s : String) : List String :=
  if s ∈ acc then acc else acc ++ [s]

/-- The first draw loop of `generateOptions`: walk the (already shuffled)
candidate pool, adding answer-field values to the set until it holds 3. -/
def collectWrong (field : Word → String) : List Word → List String → List String
  | [], acc => acc
  | w :: ws, acc =>
    if 3 ≤ acc.length then acc
    else collectWrong field ws (insertUnique acc (field w))

/-- The fallback draw loop of `generateOptions`: like `collectWrong` but it
skips any word whose answer field equals the excluded previous answer (the
source keeps this exclusion inside the fallback as well). -/
def collectWrongFallback (field : Word → String) (prevAnswer : Option String) :
    List Word → List String → List String
  | [], acc => acc
  | w :: ws, acc =>
    if 3 ≤ acc.length then acc
    else if prevAnswer = some (field w) then collectWrongFallback field prevAnswer ws acc
    else collectWrongFallback field prevAnswer ws (insertUnique acc (field w))

/-- First-pass candidate filter of `generateOptions`:
`w.id !== question.id && (prevAnswer ? field(w) !== prevAnswer : true)`.
An empty-string `prevAnswer` is falsy in JS, so it disables the exclusion. -/
def keepFirstPass (mode : QuizMode) (question : Word) (prevAnswer : Option String)
    (w : Word) : Bool :=
  w.id != question.id &&
    (match prevAnswer with
     | none => true
     | some s => s == "" || answerField mode w != s)

/-- `generateOptions` from the quiz page: one correct answer plus up to three
unique wrong answers drawn from the pool, then shuffled.  `sh1`, `sh2` and
`sh3` stand for the three `shuffleArray` call sites. -/
def generateOptions (mode : QuizMode) (sh1 sh2 : List Word → List Word)
    (sh3 : List String → List String) (question : Word) (allWords : List Word)
    (prevAnswer : Option String) : List String :=
  let correctAnswer := answerField mode question
  let candidatePool := allWords.filter (keepFirstPass mode question prevAnswer)
  let firstPass := collectWrong (answerField mode) (sh1 candidatePool) []
  let uniqueWrong :=
    if firstPass.length < 3 then
      collectWrongFallback (answerField mode) prevAnswer
        (sh2 (allWords.filter (fun w => w.id != question.id))) firstPass
    else firstPass
  sh3 (correctAnswer :: uniqueWrong.take 3)

/-- One row of the quiz result list. -/
structure QuizResult where
  wordId : Nat
  english : String
  japanese : String
  userAnswer : String
  correctAnswer : String
  isCorrect : Bool
  timeSpent : Nat
deriving DecidableEq, Repr

/-- The fixed per-question time budget of the quiz (ms). -/
def timeLimitMs : Nat := 10000

/-- The react state of the quiz page that the session logic reads or writes. -/
structure QuizState where
  words : List Word
  currentIndex : Nat
  currentQuestion : Option Word
  options : List String
  selectedAnswer : Option String
  isAnswered : Bool
  results : List QuizResult
  isTimeUp : Bool
  quizStarted : Bool
  quizFinished : Bool
  hasTimeLimit : Bool
  timeLeftMs : Nat
  previousCorrectAnswer : Option String
deriving DecidableEq, Repr

/-- Initial quiz-page state (the `useState` initialisers). -/
def quizInit : QuizState :=
  { words := [], currentIndex := 0, currentQuestion := none, options := [],
    selectedAnswer := none, isAnswered := false, results := [], isTimeUp := false,
    quizStarted := false, quizFinished := false, hasTimeLimit := true,
    timeLeftMs := timeLimitMs, previousCorrectAnswer := none }

/-- Side effects emitted by a quiz transition: fire-and-forget learning-history
saves `(wordId, isCorrect)` and an optionally scheduled delayed advance. -/
structure QuizEffects where
  saves : List (Nat × Bool)
  scheduledAdvanceMs : Option Nat
deriving DecidableEq, Repr

/-- No side effects. -/
def noEffects : QuizEffects := { saves := [], scheduledAdvanceMs := none }

/-- `Math.round((timeLimitMs - timeLeftMs) / 1000)`; for a non-negative
numerator, JS rounding is floor of the value plus one half. -/
def quizTimeSpent (s : QuizState) : Nat := (timeLimitMs - s.timeLeftMs + 500) / 1000

/-- One 100ms quiz timer tick: `Math.max(0, prev - 100)` (truncated
subtraction on `Nat`), flagging time-up when 0 is reached. -/
def quizTick (s : QuizState) : QuizState :=
  let next := s.timeLeftMs - 100
  { s with timeLeftMs := next, isTimeUp := if next = 0 then true else s.isTimeUp }

/-- `handleTimeUp`: record a missed answer for the current question, persist
the miss, and schedule the 2000ms-delayed advance. -/
def handleTimeUp (mode : QuizMode) (s : QuizState) : QuizState × QuizEffects :=
  match s.currentQuestion with
  | some q =>
    let correctAnswer := answerField mode q
    let result : QuizResult :=
      { wordId := q.id, english := q.english, japanese := q.japanese,
        userAnswer := "", correctAnswer := correctAnswer, isCorrect := false,
        timeSpent := quizTimeSpent s }
    ({ s with results := s.results ++ [result], isAnswered := true },
     { saves := [(q.id, false)], scheduledAdvanceMs := some 2000 })
  | none => (s, noEffects)

/-- `handleAnswerSelect`: ignore input once answered or timed out, otherwise
record the answer, persist it, and schedule the 2000ms-delayed advance. -/
def handleAnswerSelect (mode : QuizMode) (answer : String) (s : QuizState) :
    QuizState × QuizEffects :=
  if s.isAnswered || s.isTimeUp then (s, noEffects)
  else
    match s.currentQuestion with
    | some q =>
      let correctAnswer := answerField mode q
      let isCorrect := answer == correctAnswer
      let result : QuizResult :=
        { wordId := q.id, english := q.english, japanese := q.japanese,
          userAnswer := answer, correctAnswer := correctAnswer, isCorrect := isCorrect,
          timeSpent := quizTimeSpent s }
      ({ s with selectedAnswer := some answer, isAnswered := true,
                results := s.results ++ [result] },
       { saves := [(q.id, isCorrect)], scheduledAdvanceMs := some 2000 })
    | none =>
      ({ s with selectedAnswer := some answer, isAnswered := true }, noEffects)

/-- Placeholder word for the (unreachable) out-of-bounds index read. -/
def wordDefault : Word := ⟨0, "", "", ""⟩

/-- `moveToNextQuestion`: finish the quiz past the last index, otherwise
advance, regenerate options excluding the just-left correct answer, and reset
the per-item sub-state and timer. -/
def moveToNextQuestion (mode : QuizMode) (sh1 sh2 : List Word → List Word)
    (sh3 : List String → List String) (s : QuizState) : QuizState :=
  let nextIndex := s.currentIndex + 1
  if s.words.length ≤ nextIndex then
    { s with quizFinished := true }
  else
    let prevCorrect := s.currentQuestion.map (answerField mode)
    let nextQ := s.words.getD nextIndex wordDefault
    { s with previousCorrectAnswer := prevCorrect,
             currentIndex := nextIndex,
             currentQuestion := some nextQ,
             options := generateOptions mode sh1 sh2 sh3 nextQ s.words prevCorrect,
             selectedAnswer := none,
             isAnswered := false,
             isTimeUp := false,
             hasTimeLimit := true,
             timeLeftMs := timeLimitMs }

/-- Successful word fetch on the quiz page: store the pool, select word 0 as
the current question, clear the previous answer and build its options. -/
def loadQuizWords (mode : QuizMode) (sh1 sh2 : List Word → List Word)
    (sh3 : List String → List String) (ws : List Word) (s : QuizState) : QuizState :=
  { s with words := ws,
           currentQuestion := ws.head?,
           previousCorrectAnswer := none,
           options := match ws.head? with
             | some w => generateOptions mode sh1 sh2 sh3 w ws none
             | none => s.options }

/-- `startQuiz` (aligned-parameters path): start only when words are loaded
and a current question exists, resetting the timer and regenerating the first
question's options with no exclusion. -/
def startQuiz (mode : QuizMode) (sh1 sh2 : List Word → List Word)
    (sh3 : List String → List String) (s : QuizState) : QuizState :=
  match s.currentQuestion with
  | some q =>
    if s.words.length = 0 then s
    else
      { s with quizStarted := true, timeLeftMs := timeLimitMs,
               options := generateOptions mode sh1 sh2 sh3 q s.words none }
  | none => s

/-- The state updates of the quiz restart button. -/
def quizReset (s : QuizState) : QuizState :=
  { s with quizFinished := false, quizStarted := false, currentIndex := 0,
           results := [], selectedAnswer := none, isAnswered := false,
           isTimeUp := false, timeLeftMs := timeLimitMs, hasTimeLimit := true }

/-- Guard under which the quiz timer effect schedules a 100ms tick. -/
def QuizTickEnabled (s : QuizState) : Prop :=
  s.quizStarted = true ∧ s.quizFinished = false ∧ s.isAnswered = false ∧
  s.hasTimeLimit = true ∧ 0 < s.timeLeftMs

/-- Guard under which the quiz timer effect invokes `handleTimeUp`. -/
def QuizTimeUpEnabled (s : QuizState) : Prop :=
  s.quizStarted = true ∧ s.quizFinished = false ∧ s.isAnswered = false ∧
  s.hasTimeLimit = true ∧ s.timeLeftMs = 0

/-- Event-level transition relation of the quiz page.  Each constructor is one
handler or timer callback, guarded by the conditions under which the source
lets it run; shuffle functions vary freely per invocation. -/
inductive QuizStep (mode : QuizMode) : QuizState → QuizState → Prop where
  | load (s : QuizState) (ws : List Word) (sh1 sh2 : List Word → List Word)
      (sh3 : List String → List String) :
      s.quizStarted = false → ws ≠ [] →
      QuizStep mode s (loadQuizWords mode sh1 sh2 sh3 ws s)
  | start (s : QuizState) (sh1 sh2 : List Word → List Word)
      (sh3 : List String → List String) :
      s.quizStarted = false →
      QuizStep mode s (startQuiz mode sh1 sh2 sh3 s)
  | select (s : QuizState) (answer : String) :
      s.quizStarted = true → s.quizFinished = false →
      QuizStep mode s (handleAnswerSelect mode answer s).1
  | timeUp (s : QuizState) :
      QuizTimeUpEnabled s →
      QuizStep mode s (handleTimeUp mode s).1
  | tick (s : QuizState) :
      QuizTickEnabled s →
      QuizStep mode s (quizTick s)
  | advance (s : QuizState) (sh1 sh2 : List Word → List Word)
      (sh3 : List String → List String) :
      s.quizStarted = true → s.quizFinished = false → s.isAnswered = true →
      QuizStep mode s (moveToNextQuestion mode sh1 sh2 sh3 s)
  | reset (s : QuizState) :
      s.quizFinished = true →
      QuizStep mode s (quizReset s)

/-- States of the quiz page reachable from its initial state. -/
def QuizReachable (mode : QuizMode) (s : QuizState) : Prop :=
  Relation.ReflTransGen (QuizStep mode) quizInit s

/-- `Math.round` for a non-negative rational: floor of the value plus 1/2
(JS rounds half-way cases up). -/
def jsRound (q : ℚ) : Int := ⌊q + 1 / 2⌋

/-- `calculateAccuracy`: 0 for an empty result list, otherwise the rounded
percentage of correct answers. -/
def calculateAccuracy (results : List QuizResult) : Int :=
  if results.length = 0 then 0
  else
    let correctCount := (results.filter (fun r => r.isCorrect)).length
    jsRound ((correctCount : ℚ) / (results.length : ℚ) * 100)

/-- A flashcard progress entry as stored in local persistence. -/
structure Progress where
  wordId : Nat
  lastStudied : Nat
  studyCount : Nat
  isLearned : Bool
deriving DecidableEq, Repr

/-- `markAsStudiedForWord`: toggle the learned flag of one word in the
progress map, incrementing `studyCount` only on the transition to learned.
`now` stands for `Date.now()`. -/
def markAsStudiedForWord (now : Nat) (progress : Nat → Option Progress)
    (wordId : Nat) : Nat → Option Progress :=
  let existing := (progress wordId).getD
    { wordId := wordId, lastStudied := now, studyCount := 0, isLearned := false }
  let newIsLearned := !existing.isLearned
  fun k =>
    if k = wordId then
      some { existing with
             lastStudied := now,
             studyCount := if newIsLearned then existing.studyCount + 1
                           else existing.studyCount,
             isLearned := newIsLearned }
    else progress k

/-- The react state of the flashcard page that the session logic reads or
writes.  `timeUpTimerPending` models whether the 1s post-expiry advance
timeout stored in `timeUpTimerRef` is live. -/
structure FlashState where
  words : List Word
  currentIndex : Nat
  prevCardIndex : Nat
  sessionStarted : Bool
  sessionFinished : Bool
  timeLeft : Nat
  isTimeUp : Bool
  isFlipped : Bool
  isNavigating : Bool
  timeUpTimerPending : Bool
deriving DecidableEq, Repr

/-- Initial flashcard-page state. -/
def flashInit : FlashState :=
  { words := [], currentIndex := 0, prevCardIndex := 0, sessionStarted := false,
    sessionFinished := false, timeLeft := 5, isTimeUp := false, isFlipped := false,
    isNavigating := false, timeUpTimerPending := false }

/-- `nextCard`: rejected while navigating; otherwise take the lock, cancel any
pending expiry timeout, and either advance one card or finish the session and
reset the index to 0. -/
def nextCard (s : FlashState) : FlashState :=
  if s.isNavigating then s
  else
    let s1 := { s with isNavigating := true, timeUpTimerPending := false }
    if s1.currentIndex < s1.words.length - 1 then
      { s1 with currentIndex := s1.currentIndex + 1, prevCardIndex := s1.currentIndex + 1,
                isFlipped := false, timeLeft := 5, isTimeUp := false }
    else
      { s1 with sessionFinished := true, currentIndex := 0, prevCardIndex := 0,
                isFlipped := false }

/-- `prevCard`: rejected while navigating; otherwise take the lock, cancel any
pending expiry timeout, and retreat one card if not already at index 0. -/
def prevCard (s : FlashState) : FlashState :=
  if s.isNavigating then s
  else
    let s1 := { s with isNavigating := true, timeUpTimerPending := false }
    if 0 < s1.currentIndex then
      { s1 with currentIndex := s1.currentIndex - 1, prevCardIndex := s1.currentIndex - 1,
                isFlipped := false, timeLeft := 5, isTimeUp := false }
    else s1

/-- Release of the navigation lock by the trailing 100ms timeout. -/
def navSettle (s : FlashState) : FlashState := { s with isNavigating := false }

/-- One 1s flashcard tick: the scheduling effect run clears any stale expiry
timeout, clears the time-up flag and decrements the remaining seconds. -/
def flashTick (s : FlashState) : FlashState :=
  { s with timeUpTimerPending := false, isTimeUp := false, timeLeft := s.timeLeft - 1 }

/-- Reaching 0: set the time-up flag and schedule the 1s advance timeout. -/
def timeUpFire (s : FlashState) : FlashState :=
  { s with timeUpTimerPending := true, isTimeUp := true }

/-- Body of the 1s post-expiry timeout: advance one card or finish the
session, resetting the index to 0; never consults the navigation lock. -/
def timeUpAdvance (s : FlashState) : FlashState :=
  let s1 := { s with timeUpTimerPending := false }
  if s1.currentIndex < s1.words.length - 1 then
    { s1 with currentIndex := s1.currentIndex + 1, prevCardIndex := s1.currentIndex + 1,
              isFlipped := false, timeLeft := 5, isTimeUp := false, isNavigating := false }
  else
    { s1 with sessionFinished := true, currentIndex := 0, prevCardIndex := 0,
              isFlipped := false, isNavigating := false }

/-- `startSession`: reset per-session sub-state and enter the active session. -/
def startSession (s : FlashState) : FlashState :=
  { s with sessionFinished := false, currentIndex := 0, prevCardIndex := 0,
           isFlipped := false, timeLeft := 5, isTimeUp := false, sessionStarted := true }

/-- The restart button on the flashcard results screen: clear the pending
timeout and return to the setup screen. -/
def flashReset (s : FlashState) : FlashState :=
  { s with timeUpTimerPending := false, sessionFinished := false, sessionStarted := false,
           currentIndex := 0, prevCardIndex := 0, isFlipped := false, timeLeft := 5,
           isTimeUp := false }

/-- `handleLevelChange` state updates on the setup screen. -/
def levelChangeReset (s : FlashState) : FlashState :=
  { s with sessionStarted := false, sessionFinished := false, currentIndex := 0,
           timeLeft := 5, isTimeUp := false, prevCardIndex := 0 }

/-- Guard under which the flashcard timer effect schedules a 1s tick. -/
def FlashTickEnabled (s : FlashState) : Prop :=
  s.sessionStarted = true ∧ s.currentIndex < s.words.length ∧ 0 < s.timeLeft

/-- Guard under which the flashcard timer effect flags time-up and schedules
the 1s advance timeout. -/
def FlashFireEnabled (s : FlashState) : Prop :=
  s.sessionStarted = true ∧ s.currentIndex < s.words.length ∧ s.timeLeft = 0 ∧
  s.isTimeUp = false

/-- The 1s advance timeout can only fire while it is still scheduled. -/
def FlashExpireEnabled (s : FlashState) : Prop := s.timeUpTimerPending = true

/-- Event-level transition relation of the flashcard page. -/
inductive FlashStep : FlashState → FlashState → Prop where
  | load (s : FlashState) (ws : List Word) :
      s.sessionStarted = false → s.sessionFinished = false → ws ≠ [] →
      FlashStep s { s with words := ws }
  | start (s : FlashState) :
      s.sessionStarted = false → 0 < s.words.length →
      FlashStep s (startSession s)
  | next (s : FlashState) :
      s.sessionStarted = true → s.sessionFinished = false →
      FlashStep s (nextCard s)
  | prev (s : FlashState) :
      s.sessionStarted = true → s.sessionFinished = false →
      FlashStep s (prevCard s)
  | flip (s : FlashState) :
      s.sessionStarted = true → s.sessionFinished = false →
      FlashStep s { s with isFlipped := !s.isFlipped }
  | tick (s : FlashState) :
      FlashTickEnabled s →
      FlashStep s (flashTick s)
  | fire (s : FlashState) :
      FlashFireEnabled s →
      FlashStep s (timeUpFire s)
  | expire (s : FlashState) :
      FlashExpireEnabled s →
      FlashStep s (timeUpAdvance s)
  | settle (s : FlashState) :
      FlashStep s (navSettle s)
  | reset (s : FlashState) :
      s.sessionFinished = true →
      FlashStep s (flashReset s)
  | levelChange (s : FlashState) :
      s.sessionStarted = false →
      FlashStep s (levelChangeReset s)

/-- States of the flashcard page reachable from its initial state. -/
def FlashReachable (s : FlashState) : Prop :=
  Relation.ReflTransGen FlashStep flashInit s

/-- One learning-history row of the user-words table. -/
structure UserWord where
  userId : Nat
  wordId : Nat
  status : String
  correctCount : Nat
  mistakeCount : Nat
  quizCorrectCount : Nat
  quizMistakeCount : Nat
  flashcardLearnedCount : Nat
  lastStudiedAt : Nat
deriving DecidableEq, Repr

/-- JS truthiness of an optional string (absent and empty are falsy). -/
def jsTruthyString : Option String → Bool
  | none => false
  | some s => s != ""

/-- JS truthiness of an optional boolean (absent is falsy). -/
def jsTruthyBool : Option Bool → Bool
  | none => false
  | some b => b

/-- `status || fallback` from the route handler. -/
def statusOr (statusB : Option String) (dflt : String) : String :=
  if jsTruthyString statusB then statusB.getD dflt else dflt

/-- The user-words POST route handler after authentication and `wordId`
validation: upsert of one `UserWord` row keyed by `(userId, wordId)`.
Counter fields absent from the created object take the schema default 0. -/
def postUserWord (now userId wordId : Nat) (statusB : Option String)
    (studyType : Option String) (isCorrect : Option Bool) (isLearned : Option Bool)
    (existing : Option UserWord) : UserWord :=
  match existing with
  | some e =>
    let base := { e with lastStudiedAt := now, status := statusOr statusB e.status }
    if studyType = some "quiz" then
      { base with
        quizCorrectCount := if jsTruthyBool isCorrect then e.quizCorrectCount + 1
                            else e.quizCorrectCount,
        quizMistakeCount := if jsTruthyBool isCorrect then e.quizMistakeCount
                            else e.quizMistakeCount + 1,
        correctCount := if jsTruthyBool isCorrect then e.correctCount + 1
                        else e.correctCount,
        mistakeCount := if jsTruthyBool isCorrect then e.mistakeCount
                        else e.mistakeCount + 1 }
    else if studyType = some "flashcard" then
      if isLearned = some false then
        { base with
          flashcardLearnedCount := 0,
          correctCount := if 0 < e.correctCount then e.correctCount - 1
                          else e.correctCount }
      else
        { base with
          flashcardLearnedCount := e.flashcardLearnedCount + 1,
          correctCount := e.correctCount + 1 }
    else
      { base with
        correctCount := if jsTruthyBool isCorrect then e.correctCount + 1
                        else e.correctCount,
        mistakeCount := if jsTruthyBool isCorrect then e.mistakeCount
                        else e.mistakeCount + 1 }
  | none =>
    let base : UserWord :=
      { userId := userId, wordId := wordId, status := statusOr statusB "学習中",
        correctCount := 0, mistakeCount := 0, quizCorrectCount := 0,
        quizMistakeCount := 0, flashcardLearnedCount := 0, lastStudiedAt := now }
    if studyType = some "quiz" then
      { base with
        quizCorrectCount := if jsTruthyBool isCorrect then 1 else 0,
        quizMistakeCount := if jsTruthyBool isCorrect then 0 else 1,
        correctCount := if jsTruthyBool isCorrect then 1 else 0,
        mistakeCount := if jsTruthyBool isCorrect then 0 else 1 }
    else if studyType = some "flashcard" then
      { base with flashcardLearnedCount := 1, correctCount := 1, mistakeCount := 0 }
    else
      { base with
        correctCount := if jsTruthyBool isCorrect then 1 else 0,
        mistakeCount := if jsTruthyBool isCorrect then 0 else 1 }

/-! Concrete words and states used by counterexamples and witnesses. -/

/-- Demo word 1. -/
def wA : Word := ⟨1, "apple", "A", "中1"⟩

/-- Demo word 2. -/
def wB : Word := ⟨2, "banana", "B", "中1"⟩

/-- Demo word 3. -/
def wC : Word := ⟨3, "cat", "C", "中1"⟩

/-- Demo word 4. -/
def wD : Word := ⟨4, "dog", "D", "中1"⟩

/-- Demo word 5. -/
def wE : Word := ⟨5, "egg", "E", "中1"⟩

/-- Demo word whose answer field is the empty string. -/
def wEmpty : Word := ⟨6, "void", "", "中1"⟩

/-- A four-word demo pool with four distinct answer values. -/
def demoWords : List Word := [wA, wB, wC, wD]

/-- A five-word pool containing an empty-valued word. -/
def c3Pool : List Word := [wEmpty, wB, wC, wD, wE]

/-- Quiz state sitting on item 0 of `c3Pool`, whose correct answer is the
empty string, ready to advance. -/
def c3State : QuizState :=
  { quizInit with words := c3Pool, currentIndex := 0, currentQuestion := some wEmpty,
                  quizStarted := true, isAnswered := true }

/-- Quiz state sitting on item 0 of `demoWords`, ready to advance. -/
def c3WitnessState : QuizState :=
  { quizInit with words := demoWords, currentIndex := 0, currentQuestion := some wA,
                  quizStarted := true, isAnswered := true }

/-- Flashcard state after a successful word fetch. -/
def flashLoaded : FlashState := { flashInit with words := demoWords }

/-- Flashcard state after starting the session on `demoWords`. -/
def flashActive : FlashState := startSession flashLoaded

/-- Active flashcard state positioned on the last card. -/
def flashLast : FlashState := { flashActive with currentIndex := 3 }

/-- Quiz state after a successful word fetch. -/
def quizLoaded : QuizState := loadQuizWords .enToJa id id id demoWords quizInit

/-- Quiz state after pressing start on `demoWords`. -/
def quizActive : QuizState := startQuiz .enToJa id id id quizLoaded

/-- Active quiz state positioned on the last question. -/
def quizLast : QuizState := { quizActive with currentIndex := 3 }

/-- Progress map holding one unlearned entry with `studyCount = 7`. -/
def progress7 : Nat → Option Progress :=
  fun k => if k = 5 then
    some { wordId := 5, lastStudied := 0, studyCount := 7, isLearned := false }
  else none

/-- Active flashcard state whose navigation lock is held while the expiry
timeout is still pending. -/
def c6LockedState : FlashState :=
  { flashInit with words := demoWords, sessionStarted := true, currentIndex := 0,
                   timeLeft := 0, isTimeUp := true, isNavigating := true,
                   timeUpTimerPending := true }

/-- A state whose navigation lock is held. -/
def cNavState : FlashState := { flashInit with isNavigating := true }

/-- Quiz state with an expired countdown. -/
def quizExpired : QuizState := { quizActive with timeLeftMs := 0 }

/-- Active flashcard state whose countdown has just reached 0. -/
def flashAtZero : FlashState := { flashActive with timeLeft := 0 }

/-- `flashAtZero` after the time-up flag has been set. -/
def flashFired : FlashState := timeUpFire flashAtZero

/-- An existing learning-history row with a positive legacy correct count. -/
def uwE3 : UserWord :=
  { userId := 7, wordId := 9, status := "学習中", correctCount := 3, mistakeCount := 2,
    quizCorrectCount := 4, quizMistakeCount := 5, flashcardLearnedCount := 6,
    lastStudiedAt := 0 }

/-- An existing learning-history row with a zero legacy correct count. -/
def uwE0 : UserWord := { uwE3 with correctCount := 0 }

/-! Helper lemmas about the wrong-answer draw loops. -/

theorem insertUnique_mem {acc : List String} {s x : String} :
    x ∈ insertUnique acc s ↔ x ∈ acc ∨ x = s := by
  by_cases h : s ∈ acc
  · rw [insertUnique, if_pos h]
    constructor
    · exact Or.inl
    · rintro (hx | rfl)
      · exact hx
      · exact h
  · rw [insertUnique, if_neg h]
    simp

theorem insertUnique_nodup {acc : List String} {s : String} (h : acc.Nodup) :
    (insertUnique acc s).Nodup := by
  by_cases hs : s ∈ acc
  · rw [insertUnique, if_pos hs]
    exact h
  · rw [insertUnique, if_neg hs]
    simp [List.nodup_append, h, hs]

theorem insertUnique_subset {acc : List String} {s : String} :
    acc ⊆ insertUnique acc s :=
  fun _ hx => insertUnique_mem.mpr (Or.inl hx)

theorem insertUnique_length {acc : List String} {s : String} :
    (insertUnique acc s).length ≤ acc.length + 1 := by
  by_cases h : s ∈ acc
  · rw [insertUnique, if_pos h]
    omega
  · rw [insertUnique, if_neg h]
    simp

theorem collectWrong_sound (f : Word → String) :
    ∀ (l : List Word) (acc : List String) (x : String),
      x ∈ collectWrong f l acc → x ∈ acc ∨ ∃ w ∈ l, f w = x := by
  intro l
  induction l with
  | nil =>
    intro acc x hx
    exact Or.inl (by simpa [collectWrong] using hx)
  | cons w ws ih =>
    intro acc x hx
    rw [collectWrong] at hx
    by_cases h3 : 3 ≤ acc.length
    · rw [if_pos h3] at hx
      exact Or.inl hx
    · rw [if_neg h3] at hx
      rcases ih _ _ hx with h | ⟨w', hw', hfw⟩
      · rcases insertUnique_mem.mp h with h' | rfl
        · exact Or.inl h'
        · exact Or.inr ⟨w, List.mem_cons_self _ _, rfl⟩
      · exact Or.inr ⟨w', List.mem_cons_of_mem _ hw', hfw⟩

theorem collectWrong_subset (f : Word → String) :
    ∀ (l : List Word) (acc : List String), acc ⊆ collectWrong f l acc := by
  intro l
  induction l with
  | nil =>
    intro acc
    simp [collectWrong]
  | cons w ws ih =>
    intro acc
    rw [collectWrong]
    by_cases h3 : 3 ≤ acc.length
    · rw [if_pos h3]
      exact fun x hx => hx
    · rw [if_neg h3]
      exact fun x hx => ih _ (insertUnique_subset hx)

theorem collectWrong_nodup (f : Word → String) :
    ∀ (l : List Word) (acc : List String), acc.Nodup → (collectWrong f l acc).Nodup := by
  intro l
  induction l with
  | nil =>
    intro acc h
    simpa [collectWrong] using h
  | cons w ws ih =>
    intro acc h
    rw [collectWrong]
    by_cases h3 : 3 ≤ acc.length
    · rw [if_pos h3]
      exact h
    · rw [if_neg h3]
      exact ih _ (insertUnique_nodup h)

theorem collectWrong_length_le (f : Word → String) :
    ∀ (l : List Word) (acc : List String), acc.length ≤ 3 →
      (collectWrong f l acc).length ≤ 3 := by
  intro l
  induction l with
  | nil =>
    intro acc h
    simpa [collectWrong] using h
  | cons w ws ih =>
    intro acc h
    rw [collectWrong]
    by_cases h3 : 3 ≤ acc.length
    · rw [if_pos h3]
      exact h
    · rw [if_neg h3]
      exact ih _ (le_trans insertUnique_length (by omega))

theorem collectWrong_complete (f : Word → String) :
    ∀ (l : List Word) (acc : List String),
      (collectWrong f l acc).length < 3 → ∀ w ∈ l, f w ∈ collectWrong f l acc := by
  intro l
  induction l with
  | nil =>
    intro acc _ w hw
    exact absurd hw (List.not_mem_nil w)
  | cons w ws ih =>
    intro acc hlen w' hw'
    rw [collectWrong] at hlen ⊢
    by_cases h3 : 3 ≤ acc.length
    · rw [if_pos h3] at hlen
      omega
    · rw [if_neg h3] at hlen ⊢
      rcases List.mem_cons.mp hw' with rfl | hmem
      · exact collectWrong_subset f ws _ (insertUnique_mem.mpr (Or.inr rfl))
      · exact ih _ hlen w' hmem

theorem collectWrongFallback_sound (f : Word → String) (p : Option String) :
    ∀ (l : List Word) (acc : List String) (x : String),
      x ∈ collectWrongFallback f p l acc →
      x ∈ acc ∨ ∃ w ∈ l, f w = x ∧ p ≠ some (f w) := by
  intro l
  induction l with
  | nil =>
    intro acc x hx
    exact Or.inl (by simpa [collectWrongFallback] using hx)
  | cons w ws ih =>
    intro acc x hx
    rw [collectWrongFallback] at hx
    by_cases h3 : 3 ≤ acc.length
    · rw [if_pos h3] at hx
      exact Or.inl hx
    · rw [if_neg h3] at hx
      by_cases hp : p = some (f w)
      · rw [if_pos hp] at hx
        rcases ih _ _ hx with h | ⟨w', hw', hfw, hpw⟩
        · exact Or.inl h
        · exact Or.inr ⟨w', List.mem_cons_of_mem _ hw', hfw, hpw⟩
      · rw [if_neg hp] at hx
        rcases ih _ _ hx with h | ⟨w', hw', hfw, hpw⟩
        · rcases insertUnique_mem.mp h with h' | rfl
          · exact Or.inl h'
          · exact Or.inr ⟨w, List.mem_cons_self _ _, rfl, hp⟩
        · exact Or.inr ⟨w', List.mem_cons_of_mem _ hw', hfw, hpw⟩

theorem keepFirstPass_id {mode : QuizMode} {question : Word} {prevAnswer : Option String}
    {w : Word} (h : keepFirstPass mode question prevAnswer w = true) :
    w.id ≠ question.id := by
  intro he
  rw [keepFirstPass.eq_def] at h
  simp [he] at h

theorem keepFirstPass_ne {mode : QuizMode} {question : Word} {s : String} {w : Word}
    (h : keepFirstPass mode question (some s) w = true) (hs : s ≠ "") :
    answerField mode w ≠ s := by
  intro he
  rw [keepFirstPass.eq_def] at h
  simp [he, hs] at h

/-- C1 (amended): for every pool and excluded answer such that the first-pass
candidate pool (pool minus the question, minus words carrying the excluded
answer) still offers at least 3 distinct answer values, and no pool word other
than the question shares the question's answer value, `generateOptions`
returns exactly 4 pairwise-distinct options containing the correct answer,
for every choice of shuffles.  (As stated the claim is false: the fallback
keeps excluding `excludedAnswer`, so a 4-word pool with 4 distinct values can
yield only 3 options; see the counterexample.) -/
theorem c1_generateOptions_four_options (mode : QuizMode)
    (sh1 sh2 : List Word → List Word) (sh3 : List String → List String)
    (hsh1 : ∀ l, (sh1 l).Perm l) (hsh3 : ∀ l, (sh3 l).Perm l)
    (question : Word) (allWords : List Word) (prevAnswer : Option String)
    (hdistinct : 3 ≤ ((allWords.filter (keepFirstPass mode question prevAnswer)).map
        (answerField mode)).toFinset.card)
    (hcorr : ∀ w ∈ allWords, w.id ≠ question.id →
        answerField mode w ≠ answerField mode question) :
    (generateOptions mode sh1 sh2 sh3 question allWords prevAnswer).length = 4 ∧
    (generateOptions mode sh1 sh2 sh3 question allWords prevAnswer).Nodup ∧
    answerField mode question ∈
      generateOptions mode sh1 sh2 sh3 question allWords prevAnswer := by
  set cand := allWords.filter (keepFirstPass mode question prevAnswer) with hcand
  set u1 := collectWrong (answerField mode) (sh1 cand) [] with hu1
  have hnodup : u1.Nodup := collectWrong_nodup _ _ _ List.nodup_nil
  have hle : u1.length ≤ 3 := collectWrong_length_le _ _ _ (by simp)
  have h3 : 3 ≤ u1.length := by
    by_contra hlt
    push_neg at hlt
    have hsub : ((sh1 cand).map (answerField mode)).toFinset ⊆ u1.toFinset := by
      intro x hx
      rw [List.mem_toFinset] at hx ⊢
      rcases List.mem_map.mp hx with ⟨w, hw, rfl⟩
      exact collectWrong_complete _ _ _ hlt w hw
    have hpermMap : ((sh1 cand).map (answerField mode)).Perm
        (cand.map (answerField mode)) := (hsh1 cand).map _
    have hcard : 3 ≤ u1.toFinset.card := by
      refine le_trans ?_ (Finset.card_le_card hsub)
      rw [List.toFinset_eq_of_perm _ _ hpermMap]
      exact hdistinct
    rw [List.toFinset_card_of_nodup hnodup] at hcard
    omega
  have hlen3 : u1.length = 3 := le_antisymm hle h3
  have hgen : generateOptions mode sh1 sh2 sh3 question allWords prevAnswer
      = sh3 (answerField mode question :: u1.take 3) := by
    simp only [generateOptions]
    rw [← hcand, ← hu1, if_neg (by omega)]
  have htake : u1.take 3 = u1 := by
    rw [← hlen3]
    exact List.take_length u1
  have hmemu1 : ∀ x ∈ u1, ∃ w ∈ cand, answerField mode w = x := by
    intro x hx
    rcases collectWrong_sound _ _ _ _ hx with h | ⟨w, hw, hfw⟩
    · exact absurd h (List.not_mem_nil x)
    · exact ⟨w, (hsh1 cand).mem_iff.mp hw, hfw⟩
  have hnotcorr : answerField mode question ∉ u1 := by
    intro hmem
    rcases hmemu1 _ hmem with ⟨w, hw, hfw⟩
    have hwmem := List.mem_filter.mp hw
    exact hcorr w hwmem.1 (keepFirstPass_id hwmem.2) hfw
  have hperm3 := hsh3 (answerField mode question :: u1)
  rw [hgen, htake]
  refine ⟨?_, ?_, ?_⟩
  · rw [hperm3.length_eq]
    simp [hlen3]
  · exact hperm3.nodup_iff.mpr (List.nodup_cons.mpr ⟨hnotcorr, hnodup⟩)
  · exact hperm3.mem_iff.mpr (List.mem_cons_self _ _)

/-- C1 counterexample: a 4-word pool with 4 distinct answer values on which
`generateOptions` (with identity shuffles, a legitimate permutation) returns
only 3 options when the excluded answer names one of the pool values: the
fallback never lifts the exclusion. -/
theorem c1_counterexample :
    4 ≤ demoWords.length ∧
    4 ≤ (demoWords.map (answerField .enToJa)).toFinset.card ∧
    (generateOptions .enToJa id id id wA demoWords (some "B")).length = 3 := by
  decide

/-- C1 witness: the amended theorem applied to the 4-word demo pool with no
excluded answer and identity shuffles. -/
theorem c1_witness :
    (generateOptions .enToJa id id id wA demoWords none).length = 4 ∧
    (generateOptions .enToJa id id id wA demoWords none).Nodup ∧
    answerField .enToJa wA ∈ generateOptions .enToJa id id id wA demoWords none :=
  c1_generateOptions_four_options .enToJa id id id (fun l => List.Perm.refl l)
    (fun l => List.Perm.refl l) wA demoWords none (by decide) (by decide)

theorem generateOptions_not_mem_prev (mode : QuizMode)
    (sh1 sh2 : List Word → List Word) (sh3 : List String → List String)
    (hsh1 : ∀ l, (sh1 l).Perm l) (_hsh2 : ∀ l, (sh2 l).Perm l)
    (hsh3 : ∀ l, (sh3 l).Perm l) (question : Word) (allWords : List Word)
    (prev : String) (hne : prev ≠ "")
    (hq : answerField mode question ≠ prev) :
    prev ∉ generateOptions mode sh1 sh2 sh3 question allWords (some prev) := by
  intro hmem
  set cand := allWords.filter (keepFirstPass mode question (some prev)) with hcand
  set u1 := collectWrong (answerField mode) (sh1 cand) [] with hu1
  set fb := allWords.filter (fun w => w.id != question.id) with hfb
  have hu1free : prev ∉ u1 := by
    intro hx
    rcases collectWrong_sound _ _ _ _ hx with h | ⟨w, hw, hfw⟩
    · exact absurd h (List.not_mem_nil prev)
    · have hwcand := (hsh1 cand).mem_iff.mp hw
      exact keepFirstPass_ne (List.mem_filter.mp hwcand).2 hne hfw
  have hgen : generateOptions mode sh1 sh2 sh3 question allWords (some prev)
      = sh3 (answerField mode question ::
          (if u1.length < 3 then
            collectWrongFallback (answerField mode) (some prev) (sh2 fb) u1
           else u1).take 3) := by
    simp only [generateOptions]
  rw [hgen, (hsh3 _).mem_iff] at hmem
  rcases List.mem_cons.mp hmem with heq | hmem'
  · exact hq heq.symm
  · have hmemu := List.take_subset _ _ hmem'
    by_cases hlen : u1.length < 3
    · rw [if_pos hlen] at hmemu
      rcases collectWrongFallback_sound _ _ _ _ _ hmemu with h | ⟨w, _, hfw, hps⟩
      · exact hu1free h
      · exact hps (by rw [hfw])
    · rw [if_neg hlen] at hmemu
      exact hu1free hmemu

/-- C3 (amended): on every advance, `moveToNextQuestion` passes the just-left
question's correct answer as the exclusion, and that answer does not appear
among the new item's options provided it is a non-empty string (JS truthiness
skips the filter for an empty excluded answer) and the next question's own
correct answer differs from it.  (As stated the claim is false: with an
empty-string previous answer the exclusion is bypassed even when the pool has
plenty of distinct values; see the counterexample.) -/
theorem c3_moveToNext_excludes_previous (mode : QuizMode)
    (sh1 sh2 : List Word → List Word) (sh3 : List String → List String)
    (hsh1 : ∀ l, (sh1 l).Perm l) (hsh2 : ∀ l, (sh2 l).Perm l)
    (hsh3 : ∀ l, (sh3 l).Perm l) (s : QuizState) (q : Word)
    (hq : s.currentQuestion = some q)
    (hlt : s.currentIndex + 1 < s.words.length)
    (hne : answerField mode q ≠ "")
    (hnext : answerField mode (s.words.getD (s.currentIndex + 1) wordDefault)
        ≠ answerField mode q) :
    (moveToNextQuestion mode sh1 sh2 sh3 s).options
        = generateOptions mode sh1 sh2 sh3 (s.words.getD (s.currentIndex + 1) wordDefault)
            s.words (some (answerField mode q)) ∧
    answerField mode q ∉ (moveToNextQuestion mode sh1 sh2 sh3 s).options := by
  have hcond : ¬ s.words.length ≤ s.currentIndex + 1 := by omega
  have hopts : (moveToNextQuestion mode sh1 sh2 sh3 s).options
      = generateOptions mode sh1 sh2 sh3 (s.words.getD (s.currentIndex + 1) wordDefault)
          s.words (some (answerField mode q)) := by
    simp only [moveToNextQuestion]
    rw [if_neg hcond]
    simp [hq]
  refine ⟨hopts, ?_⟩
  rw [hopts]
  exact generateOptions_not_mem_prev mode sh1 sh2 sh3 hsh1 hsh2 hsh3 _ s.words
    (answerField mode q) hne hnext

/-- C3 counterexample: item 0's correct answer is the empty string; the pool
offers 3 distinct non-excluded wrong values besides item 1's correct answer
(so the previous answer is avoidable), yet after the advance the previous
correct answer appears among item 1's options, because an empty-string
exclusion is falsy in JS and disables the filter. -/
theorem c3_counterexample :
    c3State.currentQuestion.map (answerField .enToJa) = some "" ∧
    answerField .enToJa (c3Pool.getD 1 wordDefault) ≠ "" ∧
    3 ≤ ((c3Pool.filter (fun w => w.id != 2 && answerField .enToJa w != "")).map
        (answerField .enToJa)).toFinset.card ∧
    "" ∈ (moveToNextQuestion .enToJa id id id c3State).options := by
  decide

/-- C3 witness: the amended theorem applied to the demo pool, advancing from
item 0 (correct answer "A") to item 1 (correct answer "B"). -/
theorem c3_witness :
    (moveToNextQuestion .enToJa id id id c3WitnessState).options
        = generateOptions .enToJa id id id
            (c3WitnessState.words.getD 1 wordDefault) c3WitnessState.words (some "A") ∧
    "A" ∉ (moveToNextQuestion .enToJa id id id c3WitnessState).options :=
  c3_moveToNext_excludes_previous .enToJa id id id (fun l => List.Perm.refl l)
    (fun l => List.Perm.refl l) (fun l => List.Perm.refl l) c3WitnessState wA rfl
    (by decide) (by decide) (by decide)

/-- C2 counterexample: an existing unlearned entry with `studyCount = 7`;
after two `markAsStudiedForWord` calls on the same word the final entry has
`isLearned = false` but `studyCount = 8`, not the unchanged 7 the claim
requires. -/
theorem c2_counterexample :
    (progress7 5).map Progress.studyCount = some 7 ∧
    ((markAsStudiedForWord 0 (markAsStudiedForWord 0 progress7 5) 5) 5).map
        Progress.studyCount = some 8 ∧
    ((markAsStudiedForWord 0 (markAsStudiedForWord 0 progress7 5) 5) 5).map
        Progress.isLearned = some false := by
  decide

/-- C2 (amended): two successive `markAsStudiedForWord` calls on the same word
restore `isLearned` to its prior value (`false` for a word with no prior
entry) and leave `studyCount` exactly one greater than before the pair: the
to-learned transition of the pair increments it once, the away transition does
not. -/
theorem c2_markLearned_double_toggle (p : Nat → Option Progress) (w t1 t2 : Nat) :
    ((markAsStudiedForWord t2 (markAsStudiedForWord t1 p w) w) w).map
        Progress.isLearned = some (((p w).map Progress.isLearned).getD false) ∧
    ((markAsStudiedForWord t2 (markAsStudiedForWord t1 p w) w) w).map
        Progress.studyCount = some (((p w).map Progress.studyCount).getD 0 + 1) := by
  cases hp : p w with
  | none => simp [markAsStudiedForWord, hp]
  | some e =>
    cases hl : e.isLearned <;> simp [markAsStudiedForWord, hp, hl]

/-- C6 counterexample: an active state whose navigation lock is held while the
expiry timeout is pending; the expiry advance still moves `currentIndex`
forward, so the expiry event is not rejected by the re-entrancy lock. -/
theorem c6_counterexample :
    c6LockedState.isNavigating = true ∧
    FlashExpireEnabled c6LockedState ∧
    (timeUpAdvance c6LockedState).currentIndex = c6LockedState.currentIndex + 1 := by
  constructor
  · rfl
  constructor
  · rfl
  · decide

/-- C6 (amended): the re-entrancy lock serializes the manual handlers only:
`nextCard` and `prevCard` are rejected outright while `isNavigating` holds.
The countdown-expiry advance never consults the lock; instead, every manual
navigation that runs cancels the pending expiry timeout, after which the
expiry advance is no longer enabled, which is what prevents a double
advance. -/
theorem c6_navigation_lock :
    (∀ s : FlashState, s.isNavigating = true → nextCard s = s ∧ prevCard s = s) ∧
    (∀ s : FlashState, s.isNavigating = false →
        (nextCard s).timeUpTimerPending = false ∧
        (prevCard s).timeUpTimerPending = false) ∧
    (∀ s : FlashState, s.isNavigating = false →
        ¬ FlashExpireEnabled (nextCard s) ∧ ¬ FlashExpireEnabled (prevCard s)) := by
  have hpend : ∀ s : FlashState, s.isNavigating = false →
      (nextCard s).timeUpTimerPending = false ∧
      (prevCard s).timeUpTimerPending = false := by
    intro s h
    constructor
    · rw [nextCard, h]
      simp only [Bool.false_eq_true, if_false]
      split <;> rfl
    · rw [prevCard, h]
      simp only [Bool.false_eq_true, if_false]
      split <;> rfl
  refine ⟨?_, hpend, ?_⟩
  · intro s h
    constructor
    · rw [nextCard, h]
      simp
    · rw [prevCard, h]
      simp
  · intro s h
    have := hpend s h
    constructor
    · rw [FlashExpireEnabled, this.1]
      simp
    · rw [FlashExpireEnabled, this.2]
      simp

/-- C6 witness: the lock rejects manual navigation in a locked state, and a
manual advance from an unlocked active state leaves no pending expiry. -/
theorem c6_witness :
    nextCard cNavState = cNavState ∧ prevCard cNavState = cNavState ∧
    ¬ FlashExpireEnabled (nextCard flashActive) := by
  obtain ⟨h1, _, h3⟩ := c6_navigation_lock
  exact ⟨(h1 cNavState rfl).1, (h1 cNavState rfl).2, (h3 flashActive rfl).1⟩

/-- C5: on an existing row, a flashcard write with `isLearned = false` resets
`flashcardLearnedCount` to 0, decrements the legacy `correctCount` by exactly
one when it is positive and leaves it at 0 otherwise, and leaves the
quiz-specific counters untouched. -/
theorem c5_flashcard_unlearn_counters (now uid wid : Nat) (statusB : Option String)
    (isC : Option Bool) (e : UserWord) :
    (postUserWord now uid wid statusB (some "flashcard") isC (some false)
        (some e)).flashcardLearnedCount = 0 ∧
    (0 < e.correctCount →
      (postUserWord now uid wid statusB (some "flashcard") isC (some false)
          (some e)).correctCount = e.correctCount - 1) ∧
    (e.correctCount = 0 →
      (postUserWord now uid wid statusB (some "flashcard") isC (some false)
          (some e)).correctCount = 0) ∧
    (postUserWord now uid wid statusB (some "flashcard") isC (some false)
        (some e)).quizCorrectCount = e.quizCorrectCount ∧
    (postUserWord now uid wid statusB (some "flashcard") isC (some false)
        (some e)).quizMistakeCount = e.quizMistakeCount := by
  simp [postUserWord]
  constructor
  · intro h h0
    omega
  · intro h
    rw [if_neg (by omega)]
    exact h

/-- C5 witness: the theorem applied to a row with `correctCount = 3` (positive
branch) and to one with `correctCount = 0` (floor branch). -/
theorem c5_witness :
    (postUserWord 1 7 9 none (some "flashcard") none (some false)
        (some uwE3)).flashcardLearnedCount = 0 ∧
    (postUserWord 1 7 9 none (some "flashcard") none (some false)
        (some uwE3)).correctCount = 2 ∧
    (postUserWord 1 7 9 none (some "flashcard") none (some false)
        (some uwE0)).correctCount = 0 ∧
    (postUserWord 1 7 9 none (some "flashcard") none (some false)
        (some uwE3)).quizCorrectCount = 4 ∧
    (postUserWord 1 7 9 none (some "flashcard") none (some false)
        (some uwE3)).quizMistakeCount = 5 :=
  ⟨(c5_flashcard_unlearn_counters 1 7 9 none none uwE3).1,
   (c5_flashcard_unlearn_counters 1 7 9 none none uwE3).2.1 (by decide),
   (c5_flashcard_unlearn_counters 1 7 9 none none uwE0).2.2.1 rfl,
   (c5_flashcard_unlearn_counters 1 7 9 none none uwE3).2.2.2.1,
   (c5_flashcard_unlearn_counters 1 7 9 none none uwE3).2.2.2.2⟩

/-- C9: a flashcard write for a `(user, word)` key with no existing row
always creates the row with `flashcardLearnedCount = 1`, `correctCount = 1`
and `mistakeCount = 0`, whatever `isLearned` (and `isCorrect`) the request
carried — including `isLearned = false`. -/
theorem c9_flashcard_create_counts (now uid wid : Nat) (statusB : Option String)
    (isC isL : Option Bool) :
    (postUserWord now uid wid statusB (some "flashcard") isC isL
        none).flashcardLearnedCount = 1 ∧
    (postUserWord now uid wid statusB (some "flashcard") isC isL
        none).correctCount = 1 ∧
    (postUserWord now uid wid statusB (some "flashcard") isC isL
        none).mistakeCount = 0 := by
  have hq : ¬ ((some "flashcard" : Option String) = some "quiz") := by decide
  simp only [postUserWord, if_neg hq, if_pos rfl]
  exact ⟨rfl, rfl, rfl⟩

/-- C8: when the countdown expires on an item with no answer selected,
`handleTimeUp` appends exactly one result record with an empty `userAnswer`
and `isCorrect = false`, marks the item answered, emits exactly one
fire-and-forget save of the miss, and schedules the advance after the fixed
2000ms review delay. -/
theorem c8_timeUp_records_miss (mode : QuizMode) (s : QuizState) (q : Word)
    (hq : s.currentQuestion = some q) (_hna : s.isAnswered = false) :
    (handleTimeUp mode s).1.results
        = s.results ++ [{ wordId := q.id, english := q.english, japanese := q.japanese,
                          userAnswer := "", correctAnswer := answerField mode q,
                          isCorrect := false, timeSpent := quizTimeSpent s }] ∧
    (handleTimeUp mode s).1.isAnswered = true ∧
    (handleTimeUp mode s).2.saves = [(q.id, false)] ∧
    (handleTimeUp mode s).2.scheduledAdvanceMs = some 2000 := by
  simp [handleTimeUp, hq]

/-- C8 witness: `handleTimeUp` on the active demo quiz state sitting on the
unanswered first question. -/
theorem c8_witness :
    (handleTimeUp .enToJa quizActive).1.results
        = quizActive.results ++ [{ wordId := wA.id, english := wA.english,
                                   japanese := wA.japanese, userAnswer := "",
                                   correctAnswer := answerField .enToJa wA,
                                   isCorrect := false,
                                   timeSpent := quizTimeSpent quizActive }] ∧
    (handleTimeUp .enToJa quizActive).1.isAnswered = true ∧
    (handleTimeUp .enToJa quizActive).2.saves = [(wA.id, false)] ∧
    (handleTimeUp .enToJa quizActive).2.scheduledAdvanceMs = some 2000 :=
  c8_timeUp_records_miss .enToJa quizActive wA rfl rfl

/-- C10: `calculateAccuracy` is total: it returns 0 on the empty result list
without dividing, and for every result list its value is an integer between
0 and 100 inclusive. -/
theorem c10_calculateAccuracy_bounds :
    calculateAccuracy [] = 0 ∧
    ∀ results : List QuizResult,
      0 ≤ calculateAccuracy results ∧ calculateAccuracy results ≤ 100 := by
  refine ⟨rfl, ?_⟩
  intro rs
  by_cases h : rs.length = 0
  · simp [calculateAccuracy, h]
  · have hn : 0 < (rs.length : ℚ) := by
      have := Nat.pos_of_ne_zero h
      exact_mod_cast this
    have hc : ((rs.filter (fun r => r.isCorrect)).length : ℚ) ≤ (rs.length : ℚ) := by
      exact_mod_cast List.length_filter_le _ rs
    have hx0 : 0 ≤ ((rs.filter (fun r => r.isCorrect)).length : ℚ)
        / (rs.length : ℚ) * 100 := by positivity
    have hx1 : ((rs.filter (fun r => r.isCorrect)).length : ℚ)
        / (rs.length : ℚ) * 100 ≤ 100 := by
      have hdiv : ((rs.filter (fun r => r.isCorrect)).length : ℚ)
          / (rs.length : ℚ) ≤ 1 := (div_le_one hn).mpr hc
      calc ((rs.filter (fun r => r.isCorrect)).length : ℚ) / (rs.length : ℚ) * 100
          ≤ 1 * 100 := by
            exact mul_le_mul_of_nonneg_right hdiv (by norm_num)
        _ = 100 := by norm_num
    rw [calculateAccuracy, if_neg h]
    constructor
    · rw [jsRound]
      refine Int.le_floor.mpr ?_
      push_cast
      linarith
    · rw [jsRound]
      have : (⌊((rs.filter (fun r => r.isCorrect)).length : ℚ)
          / (rs.length : ℚ) * 100 + 1 / 2⌋ : Int) < 101 := by
        rw [Int.floor_lt]
        push_cast
        linarith
      omega

theorem quizTick_iterate (s : QuizState) (hs : s.timeLeftMs = timeLimitMs)
    (hup : s.isTimeUp = false) :
    ∀ n, n ≤ 100 →
      (quizTick^[n] s).timeLeftMs = timeLimitMs - 100 * n ∧
      (quizTick^[n] s).isTimeUp = decide (n = 100) := by
  have h10 : timeLimitMs = 10000 := rfl
  intro n
  induction n with
  | zero =>
    intro _
    simp [hs, hup]
  | succ k ih =>
    intro hk
    obtain ⟨ht, hu⟩ := ih (by omega)
    rw [Function.iterate_succ_apply']
    have htick : (quizTick (quizTick^[k] s)).timeLeftMs
        = (quizTick^[k] s).timeLeftMs - 100 := rfl
    have hiso : (quizTick (quizTick^[k] s)).isTimeUp
        = if (quizTick^[k] s).timeLeftMs - 100 = 0 then true
          else (quizTick^[k] s).isTimeUp := rfl
    constructor
    · rw [htick, ht]
      omega
    · rw [hiso, ht, hu]
      by_cases hk100 : k + 1 = 100
      · rw [if_pos (by omega), hk100]
        decide
      · rw [if_neg (by omega)]
        rw [decide_eq_false_iff_not.mpr (show ¬ k = 100 by omega)]
        exact (decide_eq_false_iff_not.mpr (by omega)).symm

theorem flashTick_iterate (s : FlashState) :
    ∀ n, (flashTick^[n] s).timeLeft = s.timeLeft - n ∧
      (flashTick^[n] s).isTimeUp = (if n = 0 then s.isTimeUp else false) := by
  intro n
  induction n with
  | zero => simp
  | succ k ih =>
    obtain ⟨ht, hu⟩ := ih
    rw [Function.iterate_succ_apply']
    constructor
    · have : (flashTick (flashTick^[k] s)).timeLeft
          = (flashTick^[k] s).timeLeft - 1 := rfl
      rw [this, ht]
      omega
    · have : (flashTick (flashTick^[k] s)).isTimeUp = false := rfl
      rw [this, if_neg (Nat.succ_ne_zero k)]

/-- C7: for the quiz, starting from the full 10000ms budget, each 100ms tick
clamps at 0 (truncated subtraction); 100 ticks reach 0, the time-up flag is
first set on exactly the 100th tick, and no tick is enabled once the budget is
0.  For flashcards, starting from the full 5s budget, 5 one-second ticks reach
0 with the flag clear; reaching 0 sets the flag and schedules the expiry once,
the fire guard rejects a second fire while the flag is set, and no tick is
enabled at 0.  Only an explicit reset (navigation, restart) restores the
budget. -/
theorem c7_countdown_behaviour :
    (∀ s : QuizState, s.timeLeftMs = timeLimitMs → s.isTimeUp = false →
      (∀ n, n < 100 → (quizTick^[n] s).timeLeftMs = timeLimitMs - 100 * n ∧
          (quizTick^[n] s).isTimeUp = false) ∧
      (quizTick^[100] s).timeLeftMs = 0 ∧ (quizTick^[100] s).isTimeUp = true) ∧
    (∀ s : QuizState, (quizTick s).timeLeftMs = s.timeLeftMs - 100) ∧
    (∀ s : QuizState, s.timeLeftMs = 0 → ¬ QuizTickEnabled s) ∧
    (∀ s : FlashState, s.isTimeUp = false → s.timeLeft = 5 → ∀ n, n ≤ 5 →
      (flashTick^[n] s).timeLeft = 5 - n ∧ (flashTick^[n] s).isTimeUp = false) ∧
    (∀ s : FlashState, FlashFireEnabled s →
      (timeUpFire s).isTimeUp = true ∧ (timeUpFire s).timeUpTimerPending = true) ∧
    (∀ s : FlashState, s.isTimeUp = true → ¬ FlashFireEnabled s) ∧
    (∀ s : FlashState, s.timeLeft = 0 → ¬ FlashTickEnabled s) := by
  refine ⟨?_, fun s => rfl, ?_, ?_, fun s _ => ⟨rfl, rfl⟩, ?_, ?_⟩
  · intro s hs hup
    constructor
    · intro n hn
      obtain ⟨ht, hu⟩ := quizTick_iterate s hs hup n (by omega)
      exact ⟨ht, by rw [hu]; exact decide_eq_false_iff_not.mpr (by omega)⟩
    · obtain ⟨ht, hu⟩ := quizTick_iterate s hs hup 100 (le_refl 100)
      refine ⟨?_, by rw [hu]; decide⟩
      rw [ht]
      decide
  · intro s h he
    have := he.2.2.2.2
    omega
  · intro s hup ht5 n hn
    obtain ⟨ht, hu⟩ := flashTick_iterate s n
    refine ⟨by rw [ht, ht5], ?_⟩
    rw [hu]
    by_cases h0 : n = 0
    · rw [if_pos h0]
      exact hup
    · rw [if_neg h0]
  · intro s h hf
    have hfalse := hf.2.2.2
    rw [h] at hfalse
    simp at hfalse
  · intro s h hf
    have := hf.2.2
    omega

/-- C7 witness: the theorem instantiated on the active demo quiz and flashcard
states. -/
theorem c7_witness :
    ((quizTick^[100] quizActive).timeLeftMs = 0 ∧
      (quizTick^[100] quizActive).isTimeUp = true) ∧
    (quizTick^[99] quizActive).isTimeUp = false ∧
    (quizTick quizExpired).timeLeftMs = quizExpired.timeLeftMs - 100 ∧
    ¬ QuizTickEnabled quizExpired ∧
    ((flashTick^[5] flashActive).timeLeft = 0 ∧
      (flashTick^[5] flashActive).isTimeUp = false) ∧
    ((timeUpFire flashAtZero).isTimeUp = true ∧
      (timeUpFire flashAtZero).timeUpTimerPending = true) ∧
    ¬ FlashFireEnabled flashFired ∧
    ¬ FlashTickEnabled flashAtZero := by
  obtain ⟨h1, h2, h3, h4, h5, h6, h7⟩ := c7_countdown_behaviour
  exact ⟨(h1 quizActive rfl rfl).2, ((h1 quizActive rfl rfl).1 99 (by decide)).2,
    h2 quizExpired, h3 quizExpired rfl,
    h4 flashActive rfl rfl 5 (by decide),
    h5 flashAtZero ⟨rfl, by decide, rfl, rfl⟩,
    h6 flashFired rfl, h7 flashAtZero rfl⟩

theorem flashStep_inv {s t : FlashState} (h : FlashStep s t)
    (hinv : s.sessionStarted = true → s.sessionFinished = false →
      s.currentIndex < s.words.length) :
    t.sessionStarted = true → t.sessionFinished = false →
      t.currentIndex < t.words.length := by
  cases h with
  | load ws hns hnf hne =>
    intro ha _
    have ha' : s.sessionStarted = true := ha
    rw [hns] at ha'
    simp at ha'
  | start hns hlen =>
    intro _ _
    exact hlen
  | next hst hnf =>
    intro ha haf
    by_cases hnav : s.isNavigating
    · have heq : nextCard s = s := by rw [nextCard, if_pos hnav]
      rw [heq] at ha haf ⊢
      exact hinv ha haf
    · by_cases hlt : s.currentIndex < s.words.length - 1
      · have hidx : (nextCard s).currentIndex = s.currentIndex + 1 := by
          simp [nextCard, hnav, hlt]
        have hwords : (nextCard s).words = s.words := by
          simp [nextCard, hnav, hlt]
        rw [hidx, hwords]
        omega
      · have hfin : (nextCard s).sessionFinished = true := by
          simp [nextCard, hnav, hlt]
        rw [hfin] at haf
        simp at haf
  | prev hst hnf =>
    intro ha haf
    by_cases hnav : s.isNavigating
    · have heq : prevCard s = s := by rw [prevCard, if_pos hnav]
      rw [heq] at ha haf ⊢
      exact hinv ha haf
    · have hst' : s.sessionStarted = true := by
        by_cases hlt : 0 < s.currentIndex <;>
          simpa [prevCard, hnav, hlt] using ha
      have hnf' : s.sessionFinished = false := by
        by_cases hlt : 0 < s.currentIndex <;>
          simpa [prevCard, hnav, hlt] using haf
      have hbound := hinv hst' hnf'
      by_cases hlt : 0 < s.currentIndex
      · have hidx : (prevCard s).currentIndex = s.currentIndex - 1 := by
          simp [prevCard, hnav, hlt]
        have hwords : (prevCard s).words = s.words := by
          simp [prevCard, hnav, hlt]
        rw [hidx, hwords]
        omega
      · have hidx : (prevCard s).currentIndex = s.currentIndex := by
          simp [prevCard, hnav, hlt]
        have hwords : (prevCard s).words = s.words := by
          simp [prevCard, hnav, hlt]
        rw [hidx, hwords]
        exact hbound
  | flip hst hnf =>
    intro ha haf
    exact hinv ha haf
  | tick hen =>
    intro ha haf
    exact hinv ha haf
  | fire hen =>
    intro ha haf
    exact hinv ha haf
  | expire hen =>
    intro ha haf
    by_cases hlt : s.currentIndex < s.words.length - 1
    · have hidx : (timeUpAdvance s).currentIndex = s.currentIndex + 1 := by
        simp [timeUpAdvance, hlt]
      have hwords : (timeUpAdvance s).words = s.words := by
        simp [timeUpAdvance, hlt]
      rw [hidx, hwords]
      omega
    · have hfin : (timeUpAdvance s).sessionFinished = true := by
        simp [timeUpAdvance, hlt]
      rw [hfin] at haf
      simp at haf
  | settle =>
    intro ha haf
    exact hinv ha haf
  | reset hfin =>
    intro ha _
    have ha' : (false : Bool) = true := ha
    simp at ha'
  | levelChange hns =>
    intro ha _
    have ha' : (false : Bool) = true := ha
    simp at ha'

theorem flashReachable_inv {s : FlashState} (h : FlashReachable s) :
    s.sessionStarted = true → s.sessionFinished = false →
      s.currentIndex < s.words.length := by
  induction h with
  | refl =>
    intro ha _
    have ha' : (false : Bool) = true := ha
    simp at ha'
  | tail _ hstep ih =>
    exact flashStep_inv hstep ih

theorem quizStep_inv {mode : QuizMode} {s t : QuizState} (h : QuizStep mode s t)
    (h1 : s.quizStarted = false → s.currentIndex = 0)
    (h2 : s.quizStarted = true → s.currentIndex < s.words.length) :
    (t.quizStarted = false → t.currentIndex = 0) ∧
    (t.quizStarted = true → t.currentIndex < t.words.length) := by
  cases h with
  | load ws sh1 sh2 sh3 hns hne =>
    constructor
    · intro _
      exact h1 hns
    · intro ha
      have ha' : s.quizStarted = true := ha
      rw [hns] at ha'
      simp at ha'
  | start sh1 sh2 sh3 hns =>
    cases hcq : s.currentQuestion with
    | none =>
      constructor
      · intro _
        have hidx : (startQuiz mode sh1 sh2 sh3 s).currentIndex = s.currentIndex := by
          simp [startQuiz, hcq]
        rw [hidx]
        exact h1 hns
      · intro ha
        have hst : (startQuiz mode sh1 sh2 sh3 s).quizStarted = s.quizStarted := by
          simp [startQuiz, hcq]
        rw [hst, hns] at ha
        simp at ha
    | some q =>
      by_cases h0 : s.words.length = 0
      · constructor
        · intro _
          have hidx : (startQuiz mode sh1 sh2 sh3 s).currentIndex = s.currentIndex := by
            simp [startQuiz, hcq, h0]
          rw [hidx]
          exact h1 hns
        · intro ha
          have hst : (startQuiz mode sh1 sh2 sh3 s).quizStarted = s.quizStarted := by
            simp [startQuiz, hcq, h0]
          rw [hst, hns] at ha
          simp at ha
      · constructor
        · intro ha
          have hst : (startQuiz mode sh1 sh2 sh3 s).quizStarted = true := by
            simp [startQuiz, hcq, h0]
          rw [hst] at ha
          simp at ha
        · intro _
          have hidx : (startQuiz mode sh1 sh2 sh3 s).currentIndex = s.currentIndex := by
            simp [startQuiz, hcq, h0]
          have hwords : (startQuiz mode sh1 sh2 sh3 s).words = s.words := by
            simp [startQuiz, hcq, h0]
          rw [hidx, hwords, h1 hns]
          omega
  | select answer hst hnf =>
    have hfix : (handleAnswerSelect mode answer s).1.currentIndex = s.currentIndex ∧
        (handleAnswerSelect mode answer s).1.words = s.words ∧
        (handleAnswerSelect mode answer s).1.quizStarted = s.quizStarted := by
      by_cases hb : (s.isAnswered || s.isTimeUp) = true
      · simp [handleAnswerSelect, hb]
      · cases hcq : s.currentQuestion <;> simp [handleAnswerSelect, hb, hcq]
    obtain ⟨hi, hw, hq⟩ := hfix
    constructor
    · intro ha
      rw [hq] at ha
      rw [hi]
      exact h1 ha
    · intro ha
      rw [hq] at ha
      rw [hi, hw]
      exact h2 ha
  | timeUp hen =>
    have hfix : (handleTimeUp mode s).1.currentIndex = s.currentIndex ∧
        (handleTimeUp mode s).1.words = s.words ∧
        (handleTimeUp mode s).1.quizStarted = s.quizStarted := by
      cases hcq : s.currentQuestion <;> simp [handleTimeUp, hcq]
    obtain ⟨hi, hw, hq⟩ := hfix
    constructor
    · intro ha
      rw [hq] at ha
      rw [hi]
      exact h1 ha
    · intro ha
      rw [hq] at ha
      rw [hi, hw]
      exact h2 ha
  | tick hen =>
    constructor
    · intro ha
      exact h1 ha
    · intro ha
      exact h2 ha
  | advance sh1 sh2 sh3 hst hnf hans =>
    by_cases hle : s.words.length ≤ s.currentIndex + 1
    · have hfix : (moveToNextQuestion mode sh1 sh2 sh3 s).currentIndex = s.currentIndex ∧
          (moveToNextQuestion mode sh1 sh2 sh3 s).words = s.words ∧
          (moveToNextQuestion mode sh1 sh2 sh3 s).quizStarted = s.quizStarted := by
        simp [moveToNextQuestion, hle]
      obtain ⟨hi, hw, hq⟩ := hfix
      constructor
      · intro ha
        rw [hq] at ha
        rw [hi]
        exact h1 ha
      · intro ha
        rw [hq] at ha
        rw [hi, hw]
        exact h2 ha
    · have hfix : (moveToNextQuestion mode sh1 sh2 sh3 s).currentIndex = s.currentIndex + 1 ∧
          (moveToNextQuestion mode sh1 sh2 sh3 s).words = s.words ∧
          (moveToNextQuestion mode sh1 sh2 sh3 s).quizStarted = s.quizStarted := by
        simp [moveToNextQuestion, hle]
      obtain ⟨hi, hw, hq⟩ := hfix
      constructor
      · intro ha
        rw [hq, hst] at ha
        simp at ha
      · intro _
        rw [hi, hw]
        omega
  | reset hfin =>
    constructor
    · intro _
      exact rfl
    · intro ha
      have ha' : (false : Bool) = true := ha
      simp at ha'

theorem quizReachable_inv {mode : QuizMode} {s : QuizState} (h : QuizReachable mode s) :
    (s.quizStarted = false → s.currentIndex = 0) ∧
    (s.quizStarted = true → s.currentIndex < s.words.length) := by
  induction h with
  | refl =>
    constructor
    · intro _
      exact rfl
    · intro ha
      have ha' : (false : Bool) = true := ha
      simp at ha'
  | tail _ hstep ih =>
    exact quizStep_inv hstep ih.1 ih.2

/-- C4: in both modes every reachable active state keeps
`currentIndex < length items`; flashcard retreat is a position no-op at index
0; advance below the last index moves the position by exactly one without
finishing; advance at the last index finishes the session instead of moving
out of bounds, resetting `currentIndex` to 0 in flashcard mode (the quiz keeps
its index, which stays in bounds). -/
theorem c4_index_invariant (mode : QuizMode)
    (sh1 sh2 : List Word → List Word) (sh3 : List String → List String) :
    (∀ s : FlashState, FlashReachable s → s.sessionStarted = true →
        s.sessionFinished = false → s.currentIndex < s.words.length) ∧
    (∀ s : QuizState, QuizReachable mode s → s.quizStarted = true →
        s.currentIndex < s.words.length) ∧
    (∀ s : FlashState, s.currentIndex = 0 → (prevCard s).currentIndex = 0) ∧
    (∀ s : FlashState, s.isNavigating = false → s.currentIndex + 1 < s.words.length →
        (nextCard s).currentIndex = s.currentIndex + 1 ∧
        (nextCard s).sessionFinished = s.sessionFinished) ∧
    (∀ s : FlashState, s.isNavigating = false → s.words.length ≤ s.currentIndex + 1 →
        (nextCard s).sessionFinished = true ∧ (nextCard s).currentIndex = 0) ∧
    (∀ s : QuizState, s.currentIndex + 1 < s.words.length →
        (moveToNextQuestion mode sh1 sh2 sh3 s).currentIndex = s.currentIndex + 1 ∧
        (moveToNextQuestion mode sh1 sh2 sh3 s).quizFinished = s.quizFinished) ∧
    (∀ s : QuizState, s.words.length ≤ s.currentIndex + 1 →
        (moveToNextQuestion mode sh1 sh2 sh3 s).quizFinished = true ∧
        (moveToNextQuestion mode sh1 sh2 sh3 s).currentIndex = s.currentIndex) := by
  refine ⟨fun s h => flashReachable_inv h,
    fun s h => (quizReachable_inv h).2, ?_, ?_, ?_, ?_, ?_⟩
  · intro s h0
    by_cases hnav : s.isNavigating
    · rw [prevCard, if_pos hnav]
      exact h0
    · simp [prevCard, hnav, h0]
  · intro s hnav hlt
    have hlt' : s.currentIndex < s.words.length - 1 := by omega
    constructor <;> simp [nextCard, hnav, hlt']
  · intro s hnav hle
    have hlt' : ¬ s.currentIndex < s.words.length - 1 := by omega
    constructor <;> simp [nextCard, hnav, hlt']
  · intro s hlt
    have hle' : ¬ s.words.length ≤ s.currentIndex + 1 := by omega
    constructor <;> simp [moveToNextQuestion, hle']
  · intro s hle
    constructor <;> simp [moveToNextQuestion, hle]

/-- C4 witness: the invariants and step behaviours instantiated on concrete
reachable active sessions over the demo pool. -/
theorem c4_witness :
    flashActive.currentIndex < flashActive.words.length ∧
    quizActive.currentIndex < quizActive.words.length ∧
    (prevCard flashActive).currentIndex = 0 ∧
    ((nextCard flashActive).currentIndex = 1 ∧
      (nextCard flashActive).sessionFinished = false) ∧
    ((nextCard flashLast).sessionFinished = true ∧ (nextCard flashLast).currentIndex = 0) ∧
    ((moveToNextQuestion .enToJa id id id quizActive).currentIndex = 1 ∧
      (moveToNextQuestion .enToJa id id id quizActive).quizFinished = false) ∧
    ((moveToNextQuestion .enToJa id id id quizLast).quizFinished = true ∧
      (moveToNextQuestion .enToJa id id id quizLast).currentIndex = 3) := by
  obtain ⟨hf, hq, hp, hn, hl, hmq, hml⟩ := c4_index_invariant .enToJa id id id
  have hreachF : FlashReachable flashActive :=
    Relation.ReflTransGen.tail
      (Relation.ReflTransGen.tail Relation.ReflTransGen.refl
        (FlashStep.load flashInit demoWords rfl rfl (by decide)))
      (FlashStep.start flashLoaded rfl (by decide))
  have hreachQ : QuizReachable .enToJa quizActive :=
    Relation.ReflTransGen.tail
      (Relation.ReflTransGen.tail Relation.ReflTransGen.refl
        (QuizStep.load quizInit demoWords id id id rfl (by decide)))
      (QuizStep.start quizLoaded id id id rfl)
  exact ⟨hf flashActive hreachF rfl rfl, hq quizActive hreachQ rfl,
    hp flashActive rfl, hn flashActive rfl (by decide),
    hl flashLast rfl (by decide), hmq quizActive (by decide), hml quizLast (by decide)⟩
